import Mathlib

/-!
Shallow embedding of `src/langchain_ver/multimodal_utils.py` and the
relevant loops of `src/langchain_ver/app_streamlit.py` from the
ExamForge repository, together with theorems settling the frozen claims
about its specification.

External effects (the Groq API call plus the JSON parse of its reply,
PyMuPDF page rendering, base64 encoding) are modelled as oracle-function
parameters; a call that raises an exception is an oracle returning
`.error`.  Every Python `dict` that the code builds with a fixed key set
is modelled as an association list so that statements about its keys are
real theorems rather than typing artifacts.
-/

namespace ExamForge

/-- One question item as produced by the model and consumed by the app:
a JSON object that may or may not carry each of the four fields the code
ever looks at (`question`, `options`, `answer`, `key_points_to_cover`).
`none` models an absent key. -/
structure Item where
  question : Option String
  options : Option (List String)
  answer : Option String
  key_points_to_cover : Option String
deriving DecidableEq, Repr

/-- A successfully parsed JSON response of one batch call: the three
optional list-valued keys that `generate_exam_with_groq` merges
(`if "mcq" in result: ...` etc.); `none` models a response in which the
key is absent. -/
structure BatchResponse where
  mcq : Option (List Item)
  short_answer : Option (List Item)
  essay : Option (List Item)
deriving DecidableEq, Repr

/-- The `all_results` dictionary: an association list from key to list
of question items, so that the key set is part of the value. -/
abbrev ExamDict := List (String × List Item)

/-- Python `d[k]` on an `ExamDict` whose key is present (default `[]`
otherwise; the code only reads keys it created). -/
def dictGet (d : ExamDict) (k : String) : List Item :=
  (d.lookup k).getD []

/-- Python `d[k] = v` (equivalently `d[k].extend(...)` after reading) on
a key that is already present: updates the binding, never adds one. -/
def dictSet (d : ExamDict) (k : String) (v : List Item) : ExamDict :=
  d.map (fun p => if p.1 = k then (k, v) else p)

/-- The initial `all_results = {"mcq": [], "short_answer": [], "essay": []}`. -/
def initResults : ExamDict :=
  [("mcq", []), ("short_answer", []), ("essay", [])]

/-- The merge block of `generate_exam_with_groq` (multimodal_utils.py
lines 92-95): for each of the three keys, if the parsed response has the
key, extend the accumulated list with the response's list. -/
def mergeResult (d : ExamDict) (result : BatchResponse) : ExamDict :=
  let d1 := match result.mcq with
    | some l => dictSet d "mcq" (dictGet d "mcq" ++ l)
    | none => d
  let d2 := match result.short_answer with
    | some l => dictSet d1 "short_answer" (dictGet d1 "short_answer" ++ l)
    | none => d1
  let d3 := match result.essay with
    | some l => dictSet d2 "essay" (dictGet d2 "essay" ++ l)
    | none => d2
  d3

/-- Python `range(start, stop, step)` for a positive step:
`start, start + step, ...` while below `stop`. -/
def pyRange (start stop step : Nat) : List Nat :=
  (List.range ((stop - start + step - 1) / step)).map (fun k => start + k * step)

/-- Python `xs[i:j]` for `0 ≤ i ≤ j`. -/
def pySlice {α : Type} (xs : List α) (i j : Nat) : List α :=
  (xs.drop i).take (j - i)

/-- The fixed `batch_size = 5` of `generate_exam_with_groq`. -/
def batch_size : Nat := 5

/-- The batch sent in the iteration with start index `i`:
`batch = base64_images[i:i + batch_size]`. -/
def batchOf (images : List String) (i : Nat) : List String :=
  pySlice images i (i + batch_size)

/-- The message the loop passes to `status_callback` before each call. -/
def processingMsg (currentBatchNum totalBatches firstPage lastPage : Nat) : String :=
  s!"Processing batch {currentBatchNum} of {totalBatches} (Pages {firstPage} to {lastPage})..."

/-- The message the `except` branch passes to `status_callback`. -/
def errorMsg (currentBatchNum : Nat) (e : String) : String :=
  s!"⚠️ Error in batch {currentBatchNum}: {e}"

/-- The Groq chat-completion call followed by `json.loads` on its reply,
as an oracle: given the start index of the batch and the batch of images
it returns either the parsed JSON response or the message of the raised
exception. -/
abbrev ModelOracle := Nat → List String → Except String BatchResponse

/-- State threaded through the batch loop: the `all_results` dict, the
messages delivered to `status_callback` (discarded when the caller
passed no callback), and the model calls issued, in order. -/
structure RunState where
  all_results : ExamDict
  statusLog : List String
  modelCalls : List (Nat × List String)
deriving DecidableEq, Repr

/-- One iteration of the batch loop of `generate_exam_with_groq`
(multimodal_utils.py lines 66-100) at start index `i`: report status,
build the content and issue the model call; on success merge the parsed
response, on an exception report the error and continue unchanged. -/
def batchStep (oracle : ModelOracle) (images : List String) (total : Nat)
    (st : RunState) (i : Nat) : RunState :=
  let batch := batchOf images i
  let current_batch_num := i / batch_size + 1
  let total_batches := (total + batch_size - 1) / batch_size
  let st1 : RunState :=
    { st with statusLog := st.statusLog ++
        [processingMsg current_batch_num total_batches (i + 1) (min (i + batch_size) total)] }
  let st2 : RunState := { st1 with modelCalls := st1.modelCalls ++ [(i, batch)] }
  match oracle i batch with
  | .ok result => { st2 with all_results := mergeResult st2.all_results result }
  | .error e =>
      { st2 with statusLog := st2.statusLog ++ [errorMsg current_batch_num e] }

/-- `generate_exam_with_groq(base64_images, api_key, status_callback)`:
loop over `range(0, total_pages, batch_size)`, process each batch, and
return the accumulated state (its `all_results` component is the
function's return value; the other two components record the
observable callback and API traffic). -/
def generate_exam_with_groq (base64_images : List String) (oracle : ModelOracle) : RunState :=
  (pyRange 0 base64_images.length batch_size).foldl
    (batchStep oracle base64_images base64_images.length)
    ⟨initResults, [], []⟩

/-- The items a batch call at start index `i` contributes to the list
selected by `sel`: the response's list when the call and parse succeeded
and the key is present, nothing otherwise. -/
def successItems (oracle : ModelOracle) (images : List String)
    (sel : BatchResponse → Option (List Item)) (i : Nat) : List Item :=
  match oracle i (batchOf images i) with
  | .ok r => (sel r).getD []
  | .error _ => []

/-- `convert_pdf_to_images(pdf_path)` (multimodal_utils.py lines 13-27):
the opened document is its list of pages; `get_pixmap`, `tobytes("png")`
and `b64encode(...).decode` are oracle functions.  The loop runs
`page_num` over `range(len(doc))`, loads the page at that index and
appends its encoding. -/
def convert_pdf_to_images {Page Pixmap Bytes : Type} [Inhabited Page]
    (doc : List Page) (get_pixmap : Page → Pixmap)
    (tobytes_png : Pixmap → Bytes) (b64encode : Bytes → String) : List String :=
  (List.range doc.length).foldl
    (fun base64_images page_num =>
      let page := doc.getD page_num default
      let pix := get_pixmap page
      let img_data := tobytes_png pix
      let base64_img := b64encode img_data
      base64_images ++ [base64_img])
    []

/-- One element of the ReportLab `story` of `create_pdf_report`:
a paragraph with its text and style name, a spacer, or a page break. -/
inductive Flowable where
  | para : String → String → Flowable
  | spacer : Flowable
  | pageBreak : Flowable
deriving DecidableEq, Repr

/-- Python f-string `f"{i+1}. {text}"` used for questions and answers in
`create_pdf_report` (the numbering passed in is already `i + 1`). -/
def numberedText (n : Nat) (text : String) : String :=
  s!"{n}. {text}"

/-- Python f-string `f"• {opt}"` for an option bullet. -/
def bulletText (opt : String) : String :=
  s!"• {opt}"

/-- Python truthiness of `exam_json.get(k)` for a dict with list values:
the bound list when the key is present, empty otherwise; the guard
`if exam_json.get(k):` then asks that it be nonempty. -/
def getTruthy (exam_json : ExamDict) (k : String) : List Item :=
  (exam_json.lookup k).getD []

/-- The body of `for i, q in enumerate(exam_json["mcq"])` in the MCQ
question section (multimodal_utils.py lines 152-160): the numbered
question paragraph with `q.get('question', 'N/A')`, one bullet per
option of `q.get('options', [])`, and a spacer. -/
def mcq_question_block (i : Nat) (q : Item) : List Flowable :=
  let question_text := numberedText (i + 1) (q.question.getD "N/A")
  [Flowable.para question_text "Question"]
    ++ (q.options.getD []).map (fun opt => Flowable.para (bulletText opt) "Option")
    ++ [Flowable.spacer]

/-- The MCQ question loop starting at index `i` (Python `enumerate`). -/
def mcq_blocks (i : Nat) : List Item → List Flowable
  | [] => []
  | q :: rest => mcq_question_block i q ++ mcq_blocks (i + 1) rest

/-- The short-answer / essay question loop starting at index `i`
(multimodal_utils.py lines 165-168 and 173-176): numbered question
paragraph with `q.get('question', 'N/A')` and a spacer. -/
def question_only_blocks (i : Nat) : List Item → List Flowable
  | [] => []
  | q :: rest =>
      [Flowable.para (numberedText (i + 1) (q.question.getD "N/A")) "Question",
       Flowable.spacer] ++ question_only_blocks (i + 1) rest

/-- An answer-key loop starting at index `i` (multimodal_utils.py lines
186-188, 194-196, 202-204): one numbered paragraph per item from the
field selected by `sel` with default `'N/A'`. -/
def answer_blocks (sel : Item → Option String) (i : Nat) : List Item → List Flowable
  | [] => []
  | q :: rest =>
      [Flowable.para (numberedText (i + 1) ((sel q).getD "N/A")) "Question"]
        ++ answer_blocks sel (i + 1) rest

/-- One conditional section of the report: emitted only when the
guarding `exam_json.get(key)` is truthy (a present, nonempty list);
then a section-header paragraph followed by the loop's flowables. -/
def report_section (qs : List Item) (header : String)
    (body : List Item → List Flowable) : List Flowable :=
  match qs with
  | [] => []
  | _ => [Flowable.para header "Section"] ++ body qs

/-- `create_pdf_report(exam_json)` (multimodal_utils.py lines 104-213),
returning the `story` list it builds and renders: title, the three
question sections (each emitted only when `exam_json.get(key)` is
truthy), a page break, and the answer key.  Every item field is read
with `q.get(..., 'N/A')` or `q.get('options', [])`. -/
def create_pdf_report (exam_json : ExamDict) : List Flowable :=
  [Flowable.para "Generated Exam Report" "CustomTitle", Flowable.spacer]
    ++ report_section (getTruthy exam_json "mcq")
        "Part I: Multiple Choice Questions" (mcq_blocks 0)
    ++ report_section (getTruthy exam_json "short_answer")
        "Part II: Short Answer Questions" (question_only_blocks 0)
    ++ report_section (getTruthy exam_json "essay")
        "Part III: Essay Questions" (question_only_blocks 0)
    ++ [Flowable.pageBreak, Flowable.para "Answer Key" "CustomTitle", Flowable.spacer]
    ++ report_section (getTruthy exam_json "mcq")
        "Multiple Choice Answers:"
        (fun qs => answer_blocks Item.answer 0 qs ++ [Flowable.spacer])
    ++ report_section (getTruthy exam_json "short_answer")
        "Short Answer Reference:"
        (fun qs => answer_blocks Item.answer 0 qs ++ [Flowable.spacer])
    ++ report_section (getTruthy exam_json "essay")
        "Essay Key Points:" (answer_blocks Item.key_points_to_cover 0)

/-- The on-screen MCQ display loop of the app (app_streamlit.py lines
112-117): `q['question']` and `q['options']` are plain subscripts, so a
missing field raises `KeyError` (modelled as `.error`); the answer is
read with `q.get('answer', 'Not provided')`.  `i` is the `enumerate`
index. -/
def display_mcq_from (i : Nat) : List Item → Except String (List String)
  | [] => .ok []
  | q :: rest =>
      match q.question with
      | none => .error "KeyError: question"
      | some qtext =>
          match q.options with
          | none => .error "KeyError: options"
          | some opts =>
              let n := i + 1
              let ans := q.answer.getD "Not provided"
              let lines := [s!"**{n}. {qtext}**"]
                ++ opts.map (fun opt => s!"- {opt}")
                ++ [s!"**Correct Answer:** {ans}"]
              match display_mcq_from (i + 1) rest with
              | .ok ls => .ok (lines ++ ls)
              | .error e => .error e

/-- The whole on-screen MCQ display, `for i, q in enumerate(exam_json["mcq"])`. -/
def display_mcq (qs : List Item) : Except String (List String) :=
  display_mcq_from 0 qs

/-- Python truthiness of `page.extract_text()`: false for `None` and for
the empty string. -/
def pyTruthyStr : Option String → Bool
  | none => false
  | some s => s ≠ ""

/-- The text-extraction loop of the app (app_streamlit.py lines 41-46):
`pages` is the list of `page.extract_text()` results in page order;
`text += page_text` runs only when `page_text` is truthy. -/
def extract_text (pages : List (Option String)) : String :=
  pages.foldl
    (fun text page_text =>
      if pyTruthyStr page_text then text ++ page_text.getD "" else text)
    ""

/-- The state of `generate_exam_with_groq` after its first `m` loop
iterations (used to speak about the loop mid-run). -/
def runUpTo (oracle : ModelOracle) (images : List String) (m : Nat) : RunState :=
  ((pyRange 0 images.length batch_size).take m).foldl
    (batchStep oracle images images.length) ⟨initResults, [], []⟩

/-- An `all_results` dictionary with the three keys in creation order. -/
def toDict (A B C : List Item) : ExamDict :=
  [("mcq", A), ("short_answer", B), ("essay", C)]

/- Concrete data used by witnesses and counterexamples. -/

/-- An oracle whose every call raises (the API call fails every time). -/
def failOracle : ModelOracle := fun _ _ => .error "boom"

/-- A question item carrying none of the four fields. -/
def noQuestionItem : Item := ⟨none, none, none, none⟩

/-- An oracle that parses successfully and returns one MCQ item that has
no question field. -/
def noQuestionOracle : ModelOracle :=
  fun _ _ => .ok ⟨some [noQuestionItem], none, none⟩

/-- An exam dictionary whose MCQ list holds one field-less item. -/
def badExam : ExamDict := [("mcq", [noQuestionItem])]

/- Helper lemmas about the embedded definitions. -/

theorem initResults_eq_toDict : initResults = toDict [] [] [] := rfl

theorem mergeResult_toDict (A B C : List Item) (r : BatchResponse) :
    mergeResult (toDict A B C) r =
      toDict (A ++ r.mcq.getD []) (B ++ r.short_answer.getD []) (C ++ r.essay.getD []) := by
  rcases r with ⟨mo, so, eo⟩
  cases mo <;> cases so <;> cases eo <;>
    simp [mergeResult, toDict, dictSet, dictGet, List.lookup]

theorem dictGet_toDict_mcq (A B C : List Item) : dictGet (toDict A B C) "mcq" = A := by
  simp [dictGet, toDict, List.lookup]

theorem dictGet_toDict_short_answer (A B C : List Item) :
    dictGet (toDict A B C) "short_answer" = B := by
  simp [dictGet, toDict, List.lookup]

theorem dictGet_toDict_essay (A B C : List Item) : dictGet (toDict A B C) "essay" = C := by
  simp [dictGet, toDict, List.lookup]

theorem batchStep_modelCalls (oracle : ModelOracle) (images : List String) (total : Nat)
    (st : RunState) (i : Nat) :
    (batchStep oracle images total st i).modelCalls =
      st.modelCalls ++ [(i, batchOf images i)] := by
  cases h : oracle i (batchOf images i) <;> simp [batchStep, h]

theorem batchStep_all_results_error (oracle : ModelOracle) (images : List String)
    (total : Nat) (st : RunState) (i : Nat) (e : String)
    (h : oracle i (batchOf images i) = .error e) :
    (batchStep oracle images total st i).all_results = st.all_results := by
  simp [batchStep, h]

theorem foldl_modelCalls (oracle : ModelOracle) (images : List String) (total : Nat)
    (l : List Nat) (st : RunState) :
    (l.foldl (batchStep oracle images total) st).modelCalls =
      st.modelCalls ++ l.map (fun i => (i, batchOf images i)) := by
  induction l generalizing st with
  | nil => simp
  | cons i rest ih =>
      rw [List.foldl_cons, ih, batchStep_modelCalls, List.map_cons]
      simp

theorem foldl_all_results (oracle : ModelOracle) (images : List String) (total : Nat)
    (l : List Nat) (A B C : List Item) (log : List String)
    (calls : List (Nat × List String)) :
    (l.foldl (batchStep oracle images total) ⟨toDict A B C, log, calls⟩).all_results =
      toDict (A ++ (l.map (successItems oracle images BatchResponse.mcq)).flatten)
             (B ++ (l.map (successItems oracle images BatchResponse.short_answer)).flatten)
             (C ++ (l.map (successItems oracle images BatchResponse.essay)).flatten) := by
  induction l generalizing A B C log calls with
  | nil => simp
  | cons i rest ih =>
      rw [List.foldl_cons]
      rcases h : oracle i (batchOf images i) with e | r
      · simp only [batchStep, h]
        rw [ih]
        simp [successItems, h]
      · simp only [batchStep, h]
        rw [mergeResult_toDict, ih]
        simp [successItems, h, List.append_assoc]

theorem generate_all_results (oracle : ModelOracle) (images : List String) :
    (generate_exam_with_groq images oracle).all_results =
      toDict
        (((pyRange 0 images.length batch_size).map
            (successItems oracle images BatchResponse.mcq)).flatten)
        (((pyRange 0 images.length batch_size).map
            (successItems oracle images BatchResponse.short_answer)).flatten)
        (((pyRange 0 images.length batch_size).map
            (successItems oracle images BatchResponse.essay)).flatten) := by
  unfold generate_exam_with_groq
  rw [initResults_eq_toDict]
  rw [foldl_all_results]
  simp

theorem pyRange_zero_length (n step : Nat) :
    (pyRange 0 n step).length = (n + step - 1) / step := by
  simp [pyRange]

theorem pyRange_zero_getElem (n step k : Nat) (hk : k < (pyRange 0 n step).length) :
    (pyRange 0 n step)[k] = k * step := by
  simp only [pyRange] at hk ⊢
  rw [List.getElem_map]
  simp

theorem pyRange_zero_cons (n : Nat) (hn : 0 < n) :
    pyRange 0 n 5 = 0 :: (pyRange 0 (n - 5) 5).map (· + 5) := by
  have h5 : (n - 0 + 5 - 1) / 5 = (n - 5 - 0 + 5 - 1) / 5 + 1 := by omega
  simp only [pyRange]
  rw [h5, List.range_succ_eq_map]
  simp [List.map_map, Function.comp, Nat.succ_mul, Nat.succ_eq_add_one, Nat.add_mul]

theorem batchOf_zero (xs : List String) : batchOf xs 0 = xs.take 5 := by
  simp [batchOf, pySlice, batch_size]

theorem batchOf_shift (xs : List String) (i : Nat) :
    batchOf xs (i + 5) = batchOf (xs.drop 5) i := by
  have e1 : i + 5 + 5 - (i + 5) = 5 := by omega
  have e2 : i + 5 - i = 5 := by omega
  have e3 : 5 + i = i + 5 := by omega
  simp only [batchOf, pySlice, batch_size, List.drop_drop, e1, e2, e3]

theorem flatten_batches (xs : List String) :
    ((pyRange 0 xs.length batch_size).map (batchOf xs)).flatten = xs := by
  by_cases hx : xs = []
  · subst hx
    rfl
  · have hlen : 0 < xs.length := List.length_pos.mpr hx
    have ih := flatten_batches (xs.drop 5)
    rw [List.length_drop] at ih
    simp only [batch_size] at ih ⊢
    rw [pyRange_zero_cons xs.length hlen]
    simp only [List.map_cons, List.map_map, List.flatten_cons]
    have hmap : (pyRange 0 (xs.length - 5) 5).map (batchOf xs ∘ (· + 5)) =
        (pyRange 0 (xs.length - 5) 5).map (batchOf (xs.drop 5)) := by
      apply List.map_congr_left
      intro a _
      simp [Function.comp, batchOf_shift]
    rw [hmap, ih, batchOf_zero, List.take_append_drop]
termination_by xs.length
decreasing_by
  simp only [List.length_drop]
  have := List.length_pos.mpr hx
  omega

theorem generate_dictGet_mcq (oracle : ModelOracle) (images : List String) :
    dictGet (generate_exam_with_groq images oracle).all_results "mcq" =
      ((pyRange 0 images.length batch_size).map
        (successItems oracle images BatchResponse.mcq)).flatten := by
  rw [generate_all_results, dictGet_toDict_mcq]

theorem generate_dictGet_short_answer (oracle : ModelOracle) (images : List String) :
    dictGet (generate_exam_with_groq images oracle).all_results "short_answer" =
      ((pyRange 0 images.length batch_size).map
        (successItems oracle images BatchResponse.short_answer)).flatten := by
  rw [generate_all_results, dictGet_toDict_short_answer]

theorem generate_dictGet_essay (oracle : ModelOracle) (images : List String) :
    dictGet (generate_exam_with_groq images oracle).all_results "essay" =
      ((pyRange 0 images.length batch_size).map
        (successItems oracle images BatchResponse.essay)).flatten := by
  rw [generate_all_results, dictGet_toDict_essay]

theorem foldl_append_map {β : Type} (F : Nat → β) (idxs : List Nat) (acc : List β) :
    idxs.foldl (fun a i => a ++ [F i]) acc = acc ++ idxs.map F := by
  induction idxs generalizing acc with
  | nil => simp
  | cons i rest ih => simp [ih]

theorem range_map_getD {α β : Type} [Inhabited α] (l : List α) (G : α → β) :
    (List.range l.length).map (fun i => G (l.getD i default)) = l.map G := by
  induction l with
  | nil => rfl
  | cons x rest ih =>
      simp only [List.length_cons, List.range_succ_eq_map, List.map_cons, List.map_map]
      refine congrArg (G ((x :: rest).getD 0 default) :: ·) ?_
      rw [← ih]
      apply List.map_congr_left
      intro a _
      rfl

theorem convert_pdf_to_images_eq_map {Page Pixmap Bytes : Type} [Inhabited Page]
    (doc : List Page) (get_pixmap : Page → Pixmap) (tobytes_png : Pixmap → Bytes)
    (b64encode : Bytes → String) :
    convert_pdf_to_images doc get_pixmap tobytes_png b64encode =
      doc.map (fun p => b64encode (tobytes_png (get_pixmap p))) := by
  show (List.range doc.length).foldl
      (fun a i => a ++ [b64encode (tobytes_png (get_pixmap (doc.getD i default)))]) []
    = doc.map (fun p => b64encode (tobytes_png (get_pixmap p)))
  rw [foldl_append_map]
  rw [range_map_getD doc (fun p => b64encode (tobytes_png (get_pixmap p)))]
  rfl

theorem mem_mcq_blocks (qs : List Item) (i k : Nat) (hk : k < qs.length) :
    Flowable.para (numberedText (i + k + 1) ((qs.get ⟨k, hk⟩).question.getD "N/A")) "Question"
      ∈ mcq_blocks i qs := by
  induction qs generalizing i k with
  | nil => simp at hk
  | cons q rest ih =>
      cases k with
      | zero => simp [mcq_blocks, mcq_question_block]
      | succ m =>
          have hm : m < rest.length := by simpa using hk
          have hmem := ih (i + 1) m hm
          have harith : i + 1 + m + 1 = i + (m + 1) + 1 := by omega
          rw [harith] at hmem
          simp only [mcq_blocks]
          exact List.mem_append.mpr (Or.inr hmem)

theorem mem_answer_blocks (sel : Item → Option String) (qs : List Item) (i k : Nat)
    (hk : k < qs.length) :
    Flowable.para (numberedText (i + k + 1) ((sel (qs.get ⟨k, hk⟩)).getD "N/A")) "Question"
      ∈ answer_blocks sel i qs := by
  induction qs generalizing i k with
  | nil => simp at hk
  | cons q rest ih =>
      cases k with
      | zero => simp [answer_blocks]
      | succ m =>
          have hm : m < rest.length := by simpa using hk
          have hmem := ih (i + 1) m hm
          have harith : i + 1 + m + 1 = i + (m + 1) + 1 := by omega
          rw [harith] at hmem
          simp only [answer_blocks]
          exact List.mem_cons.mpr (Or.inr hmem)

theorem mem_question_only_blocks (qs : List Item) (i k : Nat) (hk : k < qs.length) :
    Flowable.para (numberedText (i + k + 1) ((qs.get ⟨k, hk⟩).question.getD "N/A"))
        "Question" ∈ question_only_blocks i qs := by
  induction qs generalizing i k with
  | nil => simp at hk
  | cons q rest ih =>
      cases k with
      | zero => simp [question_only_blocks]
      | succ m =>
          have hm : m < rest.length := by simpa using hk
          have hmem := ih (i + 1) m hm
          have harith : i + 1 + m + 1 = i + (m + 1) + 1 := by omega
          rw [harith] at hmem
          simp only [question_only_blocks, List.mem_append]
          right
          simpa using hmem

theorem mcq_blocks_decomp (qs : List Item) (i k : Nat) (hk : k < qs.length) :
    ∃ pre post, mcq_blocks i qs =
      pre ++ mcq_question_block (i + k) (qs.get ⟨k, hk⟩) ++ post := by
  induction qs generalizing i k with
  | nil => simp at hk
  | cons q rest ih =>
      cases k with
      | zero =>
          refine ⟨[], mcq_blocks (i + 1) rest, ?_⟩
          simp [mcq_blocks]
      | succ m =>
          have hm : m < rest.length := by simpa using hk
          obtain ⟨pre, post, hdec⟩ := ih (i + 1) m hm
          refine ⟨mcq_question_block i q ++ pre, post, ?_⟩
          have harith : i + 1 + m = i + (m + 1) := by omega
          rw [harith] at hdec
          simp [mcq_blocks, hdec, List.append_assoc]

theorem display_mcq_from_error (qs : List Item) (i : Nat)
    (h : ∃ q ∈ qs, q.question = none ∨ q.options = none) :
    ∀ ls, display_mcq_from i qs ≠ .ok ls := by
  induction qs generalizing i with
  | nil =>
      rcases h with ⟨q, hq, _⟩
      simp at hq
  | cons q rest ih =>
      cases hq : q.question with
      | none =>
          intro ls hok
          simp [display_mcq_from, hq] at hok
      | some qt =>
          cases ho : q.options with
          | none =>
              intro ls hok
              simp [display_mcq_from, hq, ho] at hok
          | some opts =>
              have hrest : ∃ p ∈ rest, p.question = none ∨ p.options = none := by
                rcases h with ⟨p, hp, hf⟩
                rcases List.mem_cons.mp hp with rfl | hmem
                · rcases hf with h1 | h1
                  · rw [hq] at h1
                    exact absurd h1 (by simp)
                  · rw [ho] at h1
                    exact absurd h1 (by simp)
                · exact ⟨p, hmem, hf⟩
              intro ls hok
              simp only [display_mcq_from, hq, ho] at hok
              cases hrec : display_mcq_from (i + 1) rest with
              | ok ls2 => exact ih (i + 1) hrest ls2 hrec
              | error e =>
                  rw [hrec] at hok
                  simp at hok

theorem join_cons (s : String) (l : List String) :
    String.join (s :: l) = s ++ String.join l := by
  apply String.ext
  simp [String.join_eq, String.data_append]

theorem extract_text_foldl (pages : List (Option String)) (acc : String) :
    pages.foldl
        (fun text page_text =>
          if pyTruthyStr page_text then text ++ page_text.getD "" else text) acc
      = acc ++ String.join (pages.filterMap
          (fun p => if pyTruthyStr p then some (p.getD "") else none)) := by
  induction pages generalizing acc with
  | nil => simp [String.join]
  | cons p rest ih =>
      by_cases hp : pyTruthyStr p
      · simp only [List.foldl_cons, List.filterMap_cons, hp, if_pos, ite_true]
        rw [ih, join_cons, String.append_assoc]
      · have hp2 : pyTruthyStr p = false := by simpa using hp
        simp [List.foldl_cons, List.filterMap_cons, hp2, ih]

/-- C1: for an input of n page images, `generate_exam_with_groq` makes
exactly ceil(n/5) model calls; the call with ordinal k (0-based) carries
start index k*5 and the pages from k*5 to min(k*5+5, n) (exclusive) in
order; the batches concatenate back to the input, so every page is in
exactly one batch; and the start indices are issued in increasing page
order 0, 5, 10, .... -/
theorem generate_exam_batching (images : List String) (oracle : ModelOracle) :
    ((generate_exam_with_groq images oracle).modelCalls.length
        = (images.length + 4) / 5)
    ∧ (∀ k, k < (generate_exam_with_groq images oracle).modelCalls.length →
        ((generate_exam_with_groq images oracle).modelCalls[k]?
          = some (k * 5, (images.drop (k * 5)).take 5)))
    ∧ (((generate_exam_with_groq images oracle).modelCalls.map Prod.snd).flatten
        = images)
    ∧ ((generate_exam_with_groq images oracle).modelCalls.map Prod.fst
        = (List.range ((images.length + 4) / 5)).map (fun k => k * 5)) := by
  have hcalls : (generate_exam_with_groq images oracle).modelCalls =
      (pyRange 0 images.length batch_size).map (fun i => (i, batchOf images i)) := by
    unfold generate_exam_with_groq
    rw [foldl_modelCalls]
    simp
  have hlen4 : images.length + batch_size - 1 = images.length + 4 := by
    simp [batch_size]
  refine ⟨?_, ?_, ?_, ?_⟩
  · rw [hcalls, List.length_map, pyRange_zero_length, hlen4]
    simp [batch_size]
  · intro k hk
    rw [hcalls] at hk ⊢
    rw [List.getElem?_eq_getElem hk, List.getElem_map]
    have hk2 : k < (pyRange 0 images.length batch_size).length := by
      simpa using hk
    rw [pyRange_zero_getElem _ _ _ hk2]
    have e1 : k * batch_size + batch_size - k * batch_size = 5 := by
      simp [batch_size]
    have hb : batchOf images (k * batch_size) =
        (images.drop (k * batch_size)).take 5 := by
      simp [batchOf, pySlice, e1]
    simp only [batch_size] at hb ⊢
    rw [hb]
  · rw [hcalls, List.map_map]
    have hcomp : (Prod.snd ∘ fun i => (i, batchOf images i)) = batchOf images := rfl
    rw [hcomp, flatten_batches]
  · rw [hcalls, List.map_map]
    have hcomp : (Prod.fst ∘ fun i => (i, batchOf images i)) = fun i => i := rfl
    rw [hcomp]
    simp [pyRange, batch_size]

/-- Witness for C1 at a concrete six-page input: the second model call
is the batch of the single page 6 with start index 5. -/
theorem generate_exam_batching_witness :
    (generate_exam_with_groq ["a", "b", "c", "d", "e", "f"] failOracle).modelCalls[1]?
      = some (5, ["f"]) := by
  have h := (generate_exam_batching ["a", "b", "c", "d", "e", "f"] failOracle).2.1 1
      (by decide)
  exact h.trans (by decide)

/-- C2: if the model call or JSON parse for the batch at position k
raises, the run skips it: the accumulated `all_results` after that
iteration equal the ones before it (no partial merge), and the whole run
is the remaining iterations folded from that unchanged state, so the
later batches are still processed and no exception escapes (the
embedded function is total by construction). -/
theorem generate_exam_skips_failed_batch (oracle : ModelOracle) (images : List String)
    (k : Nat) (hk : k < (pyRange 0 images.length batch_size).length) (e : String)
    (herr : oracle ((pyRange 0 images.length batch_size).get ⟨k, hk⟩)
        (batchOf images ((pyRange 0 images.length batch_size).get ⟨k, hk⟩))
          = .error e) :
    ((runUpTo oracle images (k + 1)).all_results
        = (runUpTo oracle images k).all_results)
    ∧ (generate_exam_with_groq images oracle
        = ((pyRange 0 images.length batch_size).drop (k + 1)).foldl
            (batchStep oracle images images.length)
            (runUpTo oracle images (k + 1))) := by
  constructor
  · unfold runUpTo
    rw [List.take_succ, List.getElem?_eq_getElem hk]
    rw [List.foldl_append]
    simp only [Option.toList_some, List.foldl_cons, List.foldl_nil]
    rw [List.get_eq_getElem] at herr
    exact batchStep_all_results_error _ _ _ _ _ _ herr
  · unfold generate_exam_with_groq runUpTo
    conv_lhs =>
      rw [← List.take_append_drop (k + 1) (pyRange 0 images.length batch_size)]
    rw [List.foldl_append]

/-- Witness for C2: a one-page input whose single batch call fails; the
results after the failing iteration equal the initial ones. -/
theorem generate_exam_skips_failed_batch_witness :
    (runUpTo failOracle ["a"] 1).all_results
      = (runUpTo failOracle ["a"] 0).all_results := by
  have h := generate_exam_skips_failed_batch failOracle ["a"] 0 (by decide) "boom" rfl
  exact h.1

/-- C3: for each of the keys "mcq", "short_answer" and "essay", the
returned list is the concatenation, in batch order, of the corresponding
lists of the successfully parsed batch responses, a response missing the
key (and a failed batch) contributing nothing. -/
theorem generate_exam_merges_by_concatenation (images : List String)
    (oracle : ModelOracle) :
    (dictGet (generate_exam_with_groq images oracle).all_results "mcq"
        = ((pyRange 0 images.length batch_size).map
            (successItems oracle images BatchResponse.mcq)).flatten)
    ∧ (dictGet (generate_exam_with_groq images oracle).all_results "short_answer"
        = ((pyRange 0 images.length batch_size).map
            (successItems oracle images BatchResponse.short_answer)).flatten)
    ∧ (dictGet (generate_exam_with_groq images oracle).all_results "essay"
        = ((pyRange 0 images.length batch_size).map
            (successItems oracle images BatchResponse.essay)).flatten) :=
  ⟨generate_dictGet_mcq oracle images, generate_dictGet_short_answer oracle images,
    generate_dictGet_essay oracle images⟩

/-- C4: whatever the input and however many batches fail, the returned
dictionary has exactly the keys "mcq", "short_answer" and "essay", in
creation order, each bound to a (possibly empty) list. -/
theorem generate_exam_result_keys (images : List String) (oracle : ModelOracle) :
    (generate_exam_with_groq images oracle).all_results.map Prod.fst
      = ["mcq", "short_answer", "essay"] := by
  rw [generate_all_results]
  rfl

/-- C5 counterexample: the code enforces no "question field present"
invariant.  With a response whose single MCQ item has no question field,
that item ends up unchanged in the merged result. -/
theorem question_field_not_enforced :
    ∃ it ∈ dictGet (generate_exam_with_groq ["page1"] noQuestionOracle).all_results
        "mcq", it.question = none := by
  refine ⟨noQuestionItem, ?_, rfl⟩
  decide

/-- C5 amended: the code surrounding the model calls enforces no
invariant on question items; every item of every successfully parsed
batch response is passed through unchanged into the merged result,
whether or not it has a question field. -/
theorem merge_passes_items_through (oracle : ModelOracle) (images : List String)
    (i : Nat) (r : BatchResponse) (item : Item)
    (hi : i ∈ pyRange 0 images.length batch_size)
    (hr : oracle i (batchOf images i) = .ok r) :
    (item ∈ r.mcq.getD [] →
        item ∈ dictGet (generate_exam_with_groq images oracle).all_results "mcq")
    ∧ (item ∈ r.short_answer.getD [] →
        item ∈ dictGet (generate_exam_with_groq images oracle).all_results
          "short_answer")
    ∧ (item ∈ r.essay.getD [] →
        item ∈ dictGet (generate_exam_with_groq images oracle).all_results
          "essay") := by
  refine ⟨fun hmem => ?_, fun hmem => ?_, fun hmem => ?_⟩
  · rw [generate_dictGet_mcq, List.mem_flatten]
    refine ⟨successItems oracle images BatchResponse.mcq i,
      List.mem_map_of_mem _ hi, ?_⟩
    simpa [successItems, hr] using hmem
  · rw [generate_dictGet_short_answer, List.mem_flatten]
    refine ⟨successItems oracle images BatchResponse.short_answer i,
      List.mem_map_of_mem _ hi, ?_⟩
    simpa [successItems, hr] using hmem
  · rw [generate_dictGet_essay, List.mem_flatten]
    refine ⟨successItems oracle images BatchResponse.essay i,
      List.mem_map_of_mem _ hi, ?_⟩
    simpa [successItems, hr] using hmem

/-- Witness for the amended C5: the field-less item returned for the
first batch of a two-page input is in the merged MCQ list. -/
theorem merge_passes_items_through_witness :
    noQuestionItem ∈ dictGet
      (generate_exam_with_groq ["page1", "page2"] noQuestionOracle).all_results
      "mcq" := by
  have h := merge_passes_items_through noQuestionOracle ["page1", "page2"] 0
      ⟨some [noQuestionItem], none, none⟩ noQuestionItem (by decide) rfl
  exact h.1 (by decide)

/-- C6: `convert_pdf_to_images` returns one base64-encoded PNG per page
of the document, in document order: the output has the document's
length, and its element at index k is the encoding of the rendering of
page k. -/
theorem convert_pdf_to_images_spec {Page Pixmap Bytes : Type} [Inhabited Page]
    (doc : List Page) (get_pixmap : Page → Pixmap) (tobytes_png : Pixmap → Bytes)
    (b64encode : Bytes → String) :
    ((convert_pdf_to_images doc get_pixmap tobytes_png b64encode).length
        = doc.length)
    ∧ (∀ k (hk : k < doc.length),
        (convert_pdf_to_images doc get_pixmap tobytes_png b64encode)[k]?
          = some (b64encode (tobytes_png (get_pixmap (doc.get ⟨k, hk⟩))))) := by
  rw [convert_pdf_to_images_eq_map]
  constructor
  · simp
  · intro k hk
    rw [List.getElem?_eq_getElem (by simpa using hk)]
    rw [List.getElem_map]
    rw [List.get_eq_getElem]

/-- Witness for C6 on a two-page document with arithmetic oracles. -/
theorem convert_pdf_to_images_spec_witness :
    (convert_pdf_to_images [10, 20] (fun p => p + 1) (fun b => b * 2)
        (fun b => toString b))[1]? = some "42" := by
  have h := (convert_pdf_to_images_spec [10, 20] (fun p => p + 1) (fun b => b * 2)
      (fun b => toString b)).2 1 (by decide)
  exact h.trans (by decide)

/-- C8: on an empty image list the loop body never runs:
`generate_exam_with_groq` returns the three empty lists, passes no
message to the status callback, and issues no model call. -/
theorem generate_exam_empty_input (oracle : ModelOracle) :
    generate_exam_with_groq [] oracle
      = ⟨[("mcq", []), ("short_answer", []), ("essay", [])], [], []⟩ := rfl

/-- C9: `create_pdf_report` is total over malformed question items and
renders every missing field with its `q.get(...)` default: an MCQ item
at position k appears in the story as the contiguous block of its
`q.get('question', 'N/A')` paragraph, exactly one bullet per entry of
`q.get('options', [])` (so no bullets when `options` is absent), and a
spacer, and its `q.get('answer', 'N/A')` paragraph is in the answer
key; a short-answer item's `question` and `answer` paragraphs and an
essay item's `question` and `key_points_to_cover` paragraphs likewise
default to 'N/A'.  The on-screen display instead subscripts
`q['question']` and `q['options']` directly, so on the same MCQ list it
raises a KeyError instead of returning output. -/
theorem create_pdf_report_total_vs_display (exam_json : ExamDict)
    (M S E : List Item)
    (hM : getTruthy exam_json "mcq" = M)
    (hS : getTruthy exam_json "short_answer" = S)
    (hE : getTruthy exam_json "essay" = E) :
    (∀ k (hk : k < M.length), ∃ pre post, create_pdf_report exam_json =
        pre ++ ([Flowable.para (numberedText (k + 1)
              ((M.get ⟨k, hk⟩).question.getD "N/A")) "Question"]
          ++ ((M.get ⟨k, hk⟩).options.getD []).map
              (fun opt => Flowable.para (bulletText opt) "Option")
          ++ [Flowable.spacer]) ++ post)
    ∧ (∀ k (hk : k < M.length),
        Flowable.para (numberedText (k + 1) ((M.get ⟨k, hk⟩).answer.getD "N/A"))
          "Question" ∈ create_pdf_report exam_json)
    ∧ (∀ k (hk : k < S.length),
        Flowable.para (numberedText (k + 1) ((S.get ⟨k, hk⟩).question.getD "N/A"))
            "Question" ∈ create_pdf_report exam_json
        ∧ Flowable.para (numberedText (k + 1) ((S.get ⟨k, hk⟩).answer.getD "N/A"))
            "Question" ∈ create_pdf_report exam_json)
    ∧ (∀ k (hk : k < E.length),
        Flowable.para (numberedText (k + 1) ((E.get ⟨k, hk⟩).question.getD "N/A"))
            "Question" ∈ create_pdf_report exam_json
        ∧ Flowable.para (numberedText (k + 1)
              ((E.get ⟨k, hk⟩).key_points_to_cover.getD "N/A"))
            "Question" ∈ create_pdf_report exam_json)
    ∧ (∀ k (hk : k < M.length),
        (M.get ⟨k, hk⟩).question = none ∨ (M.get ⟨k, hk⟩).options = none →
        ∀ ls, display_mcq M ≠ .ok ls) := by
  refine ⟨?_, ?_, ?_, ?_, ?_⟩
  · intro k hk
    obtain ⟨q, rest, rfl⟩ : ∃ q rest, M = q :: rest := by
      cases M with
      | nil => exact absurd hk (by simp)
      | cons q rest => exact ⟨q, rest, rfl⟩
    obtain ⟨pre1, post1, hdec⟩ := mcq_blocks_decomp (q :: rest) 0 k hk
    rw [Nat.zero_add] at hdec
    refine ⟨[Flowable.para "Generated Exam Report" "CustomTitle", Flowable.spacer]
        ++ [Flowable.para "Part I: Multiple Choice Questions" "Section"] ++ pre1,
      post1
        ++ report_section S "Part II: Short Answer Questions" (question_only_blocks 0)
        ++ report_section E "Part III: Essay Questions" (question_only_blocks 0)
        ++ [Flowable.pageBreak, Flowable.para "Answer Key" "CustomTitle",
            Flowable.spacer]
        ++ report_section (q :: rest) "Multiple Choice Answers:"
            (fun qs => answer_blocks Item.answer 0 qs ++ [Flowable.spacer])
        ++ report_section S "Short Answer Reference:"
            (fun qs => answer_blocks Item.answer 0 qs ++ [Flowable.spacer])
        ++ report_section E "Essay Key Points:"
            (answer_blocks Item.key_points_to_cover 0), ?_⟩
    unfold create_pdf_report
    rw [hM, hS, hE]
    simp only [report_section]
    rw [hdec]
    simp [mcq_question_block, List.append_assoc]
  · intro k hk
    have ha := mem_answer_blocks Item.answer M 0 k hk
    rw [Nat.zero_add] at ha
    obtain ⟨q, rest, rfl⟩ : ∃ q rest, M = q :: rest := by
      cases M with
      | nil => exact absurd hk (by simp)
      | cons q rest => exact ⟨q, rest, rfl⟩
    simp only [create_pdf_report, hM, hS, hE, report_section, List.mem_append]
    tauto
  · intro k hk
    have hq := mem_question_only_blocks S 0 k hk
    have ha := mem_answer_blocks Item.answer S 0 k hk
    rw [Nat.zero_add] at hq ha
    obtain ⟨q, rest, rfl⟩ : ∃ q rest, S = q :: rest := by
      cases S with
      | nil => exact absurd hk (by simp)
      | cons q rest => exact ⟨q, rest, rfl⟩
    constructor
    · simp only [create_pdf_report, hM, hS, hE, report_section, List.mem_append]
      tauto
    · simp only [create_pdf_report, hM, hS, hE, report_section, List.mem_append]
      tauto
  · intro k hk
    have hq := mem_question_only_blocks E 0 k hk
    have ha := mem_answer_blocks Item.key_points_to_cover E 0 k hk
    rw [Nat.zero_add] at hq ha
    obtain ⟨q, rest, rfl⟩ : ∃ q rest, E = q :: rest := by
      cases E with
      | nil => exact absurd hk (by simp)
      | cons q rest => exact ⟨q, rest, rfl⟩
    constructor
    · simp only [create_pdf_report, hM, hS, hE, report_section, List.mem_append]
      tauto
    · simp only [create_pdf_report, hM, hS, hE, report_section, List.mem_append]
      tauto
  · intro k hk hfield ls
    exact display_mcq_from_error M 0
      ⟨M.get ⟨k, hk⟩, List.get_mem _ _ _, hfield⟩ ls

/-- Witness for C9: the report of an exam whose single MCQ item has no
fields contains the "1. N/A" question paragraph, while the on-screen
display of the same list returns no output. -/
theorem create_pdf_report_total_vs_display_witness :
    (Flowable.para (numberedText 1 "N/A") "Question" ∈ create_pdf_report badExam)
    ∧ (∀ ls, display_mcq [noQuestionItem] ≠ .ok ls) := by
  have h := create_pdf_report_total_vs_display badExam [noQuestionItem] [] []
      rfl rfl rfl
  constructor
  · have ha := h.2.1 0 (by decide)
    simpa [noQuestionItem] using ha
  · exact h.2.2.2.2 0 (by decide) (Or.inl rfl)

/-- C10: the extracted document text is the separator-free concatenation
in page order of the per-page texts, pages whose extraction yields None
or the empty string being skipped; in particular a PDF whose every page
yields no text produces the empty string. -/
theorem extract_text_spec (pages : List (Option String)) :
    (extract_text pages
        = String.join (pages.filterMap
            (fun p => if pyTruthyStr p then some (p.getD "") else none)))
    ∧ ((∀ p ∈ pages, pyTruthyStr p = false) → extract_text pages = "") := by
  have hmain := extract_text_foldl pages ""
  constructor
  · unfold extract_text
    rw [hmain, String.empty_append]
  · intro hall
    unfold extract_text
    rw [hmain]
    have hnil : pages.filterMap
        (fun p => if pyTruthyStr p then some (p.getD "") else none) = [] := by
      rw [List.filterMap_eq_nil_iff]
      intro p hp
      simp [hall p hp]
    rw [hnil]
    rfl

/-- Witness for C10: a document of one empty page and one None page
extracts to the empty string. -/
theorem extract_text_spec_witness : extract_text [none, some ""] = "" :=
  (extract_text_spec [none, some ""]).2 (by decide)

end ExamForge
